import Mathlib

/-!
Shallow embedding of the PopCart promotion reconciliation engine
(extensions/cart-drawer/assets/popcart.js), restricted to its pure logic:
BXGY qualification and entitlement, the cheapest-item allocator, the
reward-tier engine, best-discount selection, and free-item removal.

Conventions of the embedding:
- JS numbers that hold cart quantities, prices and thresholds are
  modelled as Nat (they are non-negative integers in the source);
  arithmetic that can go negative in JS (the cheapest-mode entitlement)
  is carried out in Int.
- A property bag lookup of the shape properties[k] === (the string true)
  is modelled as a Bool field named after the property key.
- A field that JS reads with a falsy-default (x || d) is modelled as an
  Option, with the JS value 0 also mapped to the default.
- JSON.parse of the productIds string is modelled by its outcome:
  none = field absent or falsy, some none = parse throws or yields
  elements the membership check cannot process, some (some ids) = parse
  yields an array of id strings.
-/

namespace Popcart

/-- Reward modes of a BXGY offer. -/
inductive RewardMode where
  | cheapest_in_cart
  | selection
  | automatic
deriving DecidableEq, Repr

/-- Values of the appliesToType field of a BXGY offer. -/
inductive AppliesTo where
  | all
  | collection
  | products
deriving DecidableEq, Repr

/-- A cart line item, with the two engine property-bag tags surfaced as
Bools: prop_free_gift models properties[_popcart_free_gift] being the
string true, prop_bxgy_free models properties[_popcart_bxgy_free]. -/
structure CartItem where
  key : String
  product_id : Nat
  price : Nat
  quantity : Nat
  prop_free_gift : Bool
  prop_bxgy_free : Bool
deriving DecidableEq, Repr

/-- The cart snapshot fields the engine reads. -/
structure Cart where
  items : List CartItem
  total_price : Nat
deriving DecidableEq, Repr

/-- A BXGY offer configuration. -/
structure BxgyOffer where
  buyQuantity : Option Nat
  getQuantity : Option Nat
  rewardMode : Option RewardMode
  appliesToType : AppliesTo
  productIds : Option (Option (List String))
deriving DecidableEq, Repr

/-- Mirrors the id normalisation inside itemQualifiesForBxgy: an id
containing a slash keeps only the segment after the last slash
(id.split on slash, then pop), other ids are kept as written. -/
def normalizeProductId (id : String) : String :=
  if id.contains '/' then (id.splitOn "/").getLastD "" else id

/-- Embeds itemQualifiesForBxgy: all and collection always qualify
(collection membership is not actually checked in the source); products
checks the parsed product-id list, and a missing or malformed list
matches nothing. -/
def itemQualifiesForBxgy (item : CartItem) (offer : BxgyOffer) : Bool :=
  match offer.appliesToType with
  | .all => true
  | .collection => true
  | .products =>
    match offer.productIds with
    | none => false
    | some none => false
    | some (some ids) =>
      ids.any fun id => normalizeProductId id == toString item.product_id

/-- The loop body of calculateBxgyQualifyingQuantity: walk the items,
skip lines tagged as free by either engine, and add the quantity of the
lines that qualify. -/
def qualifyingQtyList : List CartItem → BxgyOffer → Nat
  | [], _ => 0
  | item :: rest, offer =>
    if item.prop_free_gift then qualifyingQtyList rest offer
    else if item.prop_bxgy_free then qualifyingQtyList rest offer
    else if itemQualifiesForBxgy item offer then
      item.quantity + qualifyingQtyList rest offer
    else qualifyingQtyList rest offer

/-- Embeds calculateBxgyQualifyingQuantity. -/
def calculateBxgyQualifyingQuantity (cart : Cart) (offer : BxgyOffer) : Nat :=
  qualifyingQtyList cart.items offer

/-- Effective buy quantity: offer.buyQuantity with JS falsy-default 3. -/
def effBuyQty (offer : BxgyOffer) : Nat :=
  match offer.buyQuantity with
  | none => 3
  | some 0 => 3
  | some (n + 1) => n + 1

/-- Effective get quantity: offer.getQuantity with JS falsy-default 1. -/
def effGetQty (offer : BxgyOffer) : Nat :=
  match offer.getQuantity with
  | none => 1
  | some 0 => 1
  | some (n + 1) => n + 1

/-- Effective reward mode: offer.rewardMode with default cheapest_in_cart. -/
def effRewardMode (offer : BxgyOffer) : RewardMode :=
  offer.rewardMode.getD .cheapest_in_cart

/-- The entitlement computed inside updateBxgyProgress: the clamped
difference formula in cheapest_in_cart mode, the cycle formula in the
other modes. -/
def bxgyEarnedFreeItems (cart : Cart) (offer : BxgyOffer) : Int :=
  match effRewardMode offer with
  | .cheapest_in_cart =>
      max 0 (min (effGetQty offer : Int)
        ((calculateBxgyQualifyingQuantity cart offer : Int) - (effBuyQty offer : Int)))
  | _ =>
      ((calculateBxgyQualifyingQuantity cart offer / effBuyQty offer) * effGetQty offer : Nat)

/-- The entitlement computed at the top of applyBxgyRewards
(earnedCycles times getQty, computed before the mode dispatch). -/
def applyBxgyEarnedFreeItems (cart : Cart) (offer : BxgyOffer) : Nat :=
  (calculateBxgyQualifyingQuantity cart offer / effBuyQty offer) * effGetQty offer

/-- The filter predicate shared by calculateBxgyQualifyingQuantity and
calculateCheapestFreeItems: the line is not tagged free by either
engine and satisfies the offer qualification predicate. -/
def bxgyQualifiesNonFree (offer : BxgyOffer) (i : CartItem) : Bool :=
  !i.prop_free_gift && !i.prop_bxgy_free && itemQualifiesForBxgy i offer

/-- Spec-side restatement of the qualifying quantity, following the
claim wording: the sum of quantities of lines satisfying the product
predicate, excluding lines tagged _popcart_free_gift or
_popcart_bxgy_free. -/
def specQualifyingQty (cart : Cart) (offer : BxgyOffer) : Nat :=
  ((cart.items.filter (bxgyQualifiesNonFree offer)).map fun i => i.quantity).sum

/-- The qualifying-line projection built inside
calculateCheapestFreeItems (key, unit price, quantity). -/
structure QItem where
  key : String
  unitPrice : Nat
  quantity : Nat
deriving DecidableEq, Repr

/-- The projection of a cart line used by calculateCheapestFreeItems. -/
def toQItem (i : CartItem) : QItem :=
  ⟨i.key, i.price, i.quantity⟩

/-- Insert one element into a price-ascending list, before the first
strictly-or-equally more expensive element, so that an element inserted
into the sorted rest of the original list stays ahead of later
equal-price elements. -/
def insertByPrice (x : QItem) : List QItem → List QItem
  | [] => [x]
  | y :: ys => if x.unitPrice ≤ y.unitPrice then x :: y :: ys else y :: insertByPrice x ys

/-- Stable ascending sort by unit price, modelling the stable JS
Array.sort with comparator (a.unitPrice - b.unitPrice). -/
def sortByPrice : List QItem → List QItem
  | [] => []
  | x :: xs => insertByPrice x (sortByPrice xs)

/-- The greedy loop of calculateCheapestFreeItems: walk the (sorted)
qualifying lines, allocating min(quantity, remaining) free units per
line until the remaining entitlement is exhausted. -/
def allocateFreeUnits : List QItem → Nat → List (String × Nat)
  | [], _ => []
  | i :: is, remaining =>
    if remaining = 0 then []
    else (i.key, min i.quantity remaining) ::
      allocateFreeUnits is (remaining - min i.quantity remaining)

/-- Embeds calculateCheapestFreeItems: for a positive entitlement,
project the qualifying non-free lines, sort them by ascending unit
price, and greedily allocate free units; the result is the
key-to-free-unit-count association in allocation order. -/
def calculateCheapestFreeItems (cart : Cart) (offer : BxgyOffer) (numFreeItems : Nat) :
    List (String × Nat) :=
  if numFreeItems = 0 then []
  else
    allocateFreeUnits
      (sortByPrice ((cart.items.filter (bxgyQualifiesNonFree offer)).map toQItem))
      numFreeItems

/-- Qualifying lines of the worked allocator example: A at 500 with
quantity 3, B at 200 with quantity 2, C at 800 with quantity 1. -/
def wCart2 : Cart :=
  ⟨[⟨"A", 1, 500, 3, false, false⟩, ⟨"B", 2, 200, 2, false, false⟩,
    ⟨"C", 3, 800, 1, false, false⟩], 2700⟩

/-- Offer of the worked allocator example. -/
def wOffer2 : BxgyOffer := ⟨some 3, some 3, some .cheapest_in_cart, .all, none⟩

/-- Total quantity of lines tagged _popcart_bxgy_free, as computed by
the filter-and-reduce in the selection and automatic branches of
applyBxgyRewards (and by countBxgyFreeItemsInCart). -/
def countBxgyFree (cart : Cart) : Nat :=
  ((cart.items.filter fun i => i.prop_bxgy_free).map fun i => i.quantity).sum

/-- The outcome of one applyBxgyRewards dispatch, with each
cart-mutating effect abstracted as an action. -/
inductive BxgyAction where
  | disabled
  | cheapestNoMutation
  | removeAllFree (count : Nat)
  | removeExcess (count : Nat)
  | cooldownSkip
  | showPicker (earned : Nat)
  | hidePicker
  | automaticAdjust (earned : Nat)
  | automaticCooldownSkip
deriving DecidableEq, Repr

/-- The mode dispatch of applyBxgyRewards for the offer it reads: the
zero-entitlement branches remove all free lines with no cooldown test;
the excess-removal branch in selection mode and the adjust branch in
automatic mode are gated on timeSinceLastAction reaching 2000. -/
def applyBxgyOfferAction (offer : BxgyOffer) (cart : Cart) (timeSinceLastAction : Nat) :
    BxgyAction :=
  match effRewardMode offer with
  | .cheapest_in_cart => .cheapestNoMutation
  | .selection =>
    if applyBxgyEarnedFreeItems cart offer = 0 ∧ 0 < countBxgyFree cart then
      .removeAllFree (countBxgyFree cart)
    else if applyBxgyEarnedFreeItems cart offer < countBxgyFree cart then
      if timeSinceLastAction < 2000 then .cooldownSkip
      else .removeExcess (countBxgyFree cart - applyBxgyEarnedFreeItems cart offer)
    else if 0 < applyBxgyEarnedFreeItems cart offer then
      .showPicker (applyBxgyEarnedFreeItems cart offer)
    else .hidePicker
  | .automatic =>
    if applyBxgyEarnedFreeItems cart offer = 0 ∧ 0 < countBxgyFree cart then
      .removeAllFree (countBxgyFree cart)
    else if 2000 ≤ timeSinceLastAction then
      .automaticAdjust (applyBxgyEarnedFreeItems cart offer)
    else .automaticCooldownSkip

/-- Embeds the offer handling of applyBxgyRewards: after the
enabled/empty guard the function reads bxgyOffers[0] and dispatches on
its mode. -/
def applyBxgyRewardsAction (bxgyEnabled : Bool) (offers : List BxgyOffer) (cart : Cart)
    (timeSinceLastAction : Nat) : BxgyAction :=
  if bxgyEnabled = false ∨ offers = [] then .disabled
  else
    match offers with
    | [] => .disabled
    | offer :: _ => applyBxgyOfferAction offer cart timeSinceLastAction

/-- One successful quantity-change issued by the removal loop. -/
structure LineChange where
  key : String
  newQuantity : Nat
deriving DecidableEq, Repr

/-- Outcome of one removeBxgyFreeItems batch: the quantity changes that
were issued, and whether the batch ended early in the catch block. -/
structure RemovalResult where
  changes : List LineChange
  aborted : Bool
deriving DecidableEq, Repr

/-- The loop of removeBxgyFreeItems over the already-filtered free
lines: fetchOk says whether the quantity-change call for a line key
resolves; a rejected call raises and, because one try/catch wraps the
whole loop, ends the batch. -/
def removeBxgyLoop (fetchOk : String → Bool) : List CartItem → Nat → RemovalResult
  | [], _ => ⟨[], false⟩
  | item :: rest, remaining =>
    if remaining = 0 then ⟨[], false⟩
    else if fetchOk item.key then
      (fun r => ⟨⟨item.key, item.quantity - min item.quantity remaining⟩ :: r.changes,
        r.aborted⟩)
        (removeBxgyLoop fetchOk rest (remaining - min item.quantity remaining))
    else ⟨[], true⟩

/-- Embeds removeBxgyFreeItems: nothing happens for a non-positive
quantity; otherwise the loop runs over the lines tagged
_popcart_bxgy_free in cart order. -/
def removeBxgyFreeItems (fetchOk : String → Bool) (cart : Cart) (quantity : Nat) :
    RemovalResult :=
  if quantity = 0 then ⟨[], false⟩
  else removeBxgyLoop fetchOk (cart.items.filter fun i => i.prop_bxgy_free) quantity

/-- Concrete offer used to witness C1. -/
def wOffer1 : BxgyOffer := ⟨some 3, some 3, some .cheapest_in_cart, .all, none⟩

/-- Concrete cart used to witness C1. -/
def wCart1 : Cart := ⟨[⟨"line1", 111, 500, 3, false, false⟩], 1500⟩

/-- Concrete offer used to witness C4. -/
def wOffer4 : BxgyOffer := ⟨some 3, some 1, some .selection, .all, none⟩

/-- Concrete cart used to witness C4. -/
def wCart4 : Cart := ⟨[⟨"line1", 111, 500, 5, false, false⟩], 2500⟩

/-- Concrete item used to witness C10. -/
def wItem10 : CartItem := ⟨"k1", 5, 100, 1, false, false⟩

/-- Collection-scoped offer used to witness C10. -/
def wOffer10a : BxgyOffer := ⟨some 2, some 1, some .automatic, .collection, none⟩

/-- Products-scoped offer with a malformed id list, used to witness C10. -/
def wOffer10b : BxgyOffer := ⟨some 2, some 1, some .automatic, .products, some none⟩

/-- Selection offer used to witness C3. -/
def wOffer3 : BxgyOffer := ⟨some 3, some 1, some .selection, .all, none⟩

/-- Cart with one tagged free line and no qualifying lines, used to
witness the zero-entitlement part of C3. -/
def wCart3 : Cart := ⟨[⟨"f", 9, 100, 1, false, true⟩], 100⟩

/-- Selection offer used to witness the cooldown part of C3. -/
def wOffer3s : BxgyOffer := ⟨some 3, some 1, some .selection, .all, none⟩

/-- Cart with three qualifying units and two tagged free units, used to
witness the cooldown part of C3. -/
def wCart3s : Cart :=
  ⟨[⟨"p1", 1, 100, 3, false, false⟩, ⟨"f1", 9, 100, 2, false, true⟩], 500⟩

/-- Cart with two tagged free lines, used by the C8 counterexample. -/
def wCart8 : Cart :=
  ⟨[⟨"a", 1, 100, 1, false, true⟩, ⟨"b", 2, 100, 1, false, true⟩], 200⟩

/-- Fetch outcome where only the change for line a is rejected. -/
def wFetch8 : String → Bool := fun k => k != "a"

/-- Fetch outcome where only the change for line b is rejected, used to
witness the amended C8. -/
def wFetch8b : String → Bool := fun k => k != "b"

/-- Free line a of the amended-C8 witness. -/
def wLineA : CartItem := ⟨"a", 1, 100, 1, false, true⟩

/-- Free line b of the amended-C8 witness. -/
def wLineB : CartItem := ⟨"b", 2, 100, 1, false, true⟩

/-- Free line c of the amended-C8 witness. -/
def wLineC : CartItem := ⟨"c", 3, 100, 1, false, true⟩

/-- First (cheapest-mode) offer of the C9 counterexample. -/
def wOffer9a : BxgyOffer := ⟨some 3, some 1, some .cheapest_in_cart, .all, none⟩

/-- Second (selection-mode) offer of the C9 counterexample. -/
def wOffer9b : BxgyOffer := ⟨some 3, some 1, some .selection, .all, none⟩

/-- Cart of the C9 counterexample: one tagged free line, on which the
second offer alone would dispatch an immediate removal. -/
def wCart9 : Cart := ⟨[⟨"f", 9, 100, 1, false, true⟩], 100⟩

/-- Reward types of a spend-threshold tier. -/
inductive RewardType where
  | free_shipping
  | discount_percent
  | discount_fixed
  | free_gift
deriving DecidableEq, Repr

/-- A reward tier: rewardValue is the raw configuration string (a
numeric string for discounts, a product handle for free gifts); none
models an absent value. -/
structure RewardTier where
  threshold : Nat
  rewardType : RewardType
  rewardValue : Option String
deriving DecidableEq, Repr

/-- JS truthiness of tier.rewardValue: absent or empty is falsy. -/
def rewardValueTruthy : Option String → Bool
  | none => false
  | some s => !(s == "")

/-- Numeric value of a digit string read in base 10. -/
def digitsToNat (ds : List Char) : Nat :=
  ds.foldl (fun a c => a * 10 + (c.toNat - 48)) 0

/-- Exact representation of a parsed decimal number: the value is
num divided by 10 to the den10. -/
structure PFloat where
  num : Int
  den10 : Nat
deriving DecidableEq, Repr

/-- The rational value of a parsed number. -/
def pfVal (p : PFloat) : ℚ :=
  (p.num : ℚ) / (10 : ℚ) ^ p.den10

/-- Exact greater-than on parsed numbers, by cross multiplication. -/
def pfGt (a b : PFloat) : Bool :=
  b.num * (10 : Int) ^ a.den10 < a.num * (10 : Int) ^ b.den10

/-- Model of JS parseFloat on the grammar
spaces, sign, digits, point digits, exponent: the longest such numeric
prefix is read exactly (no floating-point rounding) and trailing
characters are ignored; none models NaN (inputs outside this grammar,
such as the word Infinity, are also mapped to none). -/
def parseFloatNum (s : String) : Option PFloat :=
  let cs := s.data.dropWhile fun c => c = ' ' ∨ c = Char.ofNat 9 ∨ c = Char.ofNat 10 ∨
    c = Char.ofNat 13
  let sgn : Int :=
    match cs with
    | c :: _ => if c = Char.ofNat 45 then -1 else 1
    | [] => 1
  let cs1 : List Char :=
    match cs with
    | c :: rest => if c = Char.ofNat 45 ∨ c = Char.ofNat 43 then rest else cs
    | [] => []
  let intDs := cs1.takeWhile Char.isDigit
  let cs2 := cs1.dropWhile Char.isDigit
  let fracDs : List Char :=
    match cs2 with
    | c :: rest => if c = Char.ofNat 46 then rest.takeWhile Char.isDigit else []
    | [] => []
  let cs3 : List Char :=
    match cs2 with
    | c :: rest => if c = Char.ofNat 46 then rest.dropWhile Char.isDigit else cs2
    | [] => []
  if intDs = [] ∧ fracDs = [] then none
  else
    let mant : PFloat :=
      ⟨sgn * (digitsToNat intDs * 10 ^ fracDs.length + digitsToNat fracDs : Nat),
        fracDs.length⟩
    match cs3 with
    | c :: rest =>
      if c = Char.ofNat 101 ∨ c = Char.ofNat 69 then
        let eneg : Bool :=
          match rest with
          | d :: _ => d = Char.ofNat 45
          | [] => false
        let rest1 : List Char :=
          match rest with
          | d :: rr => if d = Char.ofNat 45 ∨ d = Char.ofNat 43 then rr else rest
          | [] => []
        let expDs := rest1.takeWhile Char.isDigit
        if expDs = [] then some mant
        else if eneg then some ⟨mant.num, mant.den10 + digitsToNat expDs⟩
        else some ⟨mant.num * (10 : Int) ^ digitsToNat expDs, mant.den10⟩
      else some mant
    | [] => some mant

/-- parseFloat applied to tier.rewardValue; an absent value parses as
NaN. -/
def tierValue (t : RewardTier) : Option PFloat :=
  match t.rewardValue with
  | none => none
  | some s => parseFloatNum s

/-- The parsed rational value used in inequalities once parsing is
known to succeed. -/
def valOf (t : RewardTier) : ℚ :=
  ((tierValue t).map pfVal).getD 0

/-- JS greater-than on parsed numbers: any comparison against NaN is
false. -/
def qGtOpt : Option PFloat → Option PFloat → Bool
  | some a, some b => pfGt a b
  | _, _ => false

/-- The discount filter of updateCartAttributes. -/
def isDiscountTier (t : RewardTier) : Bool :=
  decide (t.rewardType = RewardType.discount_percent ∨
    t.rewardType = RewardType.discount_fixed)

/-- The reduce step selecting the best discount tier in
updateCartAttributes: same-type tiers compare parsed rewardValues with
the strictly larger one winning (ties keep the earlier accumulator);
on a type mismatch a percent tier beats the accumulator. -/
def pickBetterDiscount (best : Option RewardTier) (tier : RewardTier) : Option RewardTier :=
  match best with
  | none => some tier
  | some b =>
    if tier.rewardType = RewardType.discount_percent ∧
        b.rewardType = RewardType.discount_percent then
      some (if qGtOpt (tierValue tier) (tierValue b) then tier else b)
    else if tier.rewardType = RewardType.discount_fixed ∧
        b.rewardType = RewardType.discount_fixed then
      some (if qGtOpt (tierValue tier) (tierValue b) then tier else b)
    else if tier.rewardType = RewardType.discount_percent then some tier
    else some b

/-- The bestDiscount reduce of updateCartAttributes over the unlocked
discount tiers. -/
def bestDiscount (unlockedTiers : List RewardTier) : Option RewardTier :=
  (unlockedTiers.filter isDiscountTier).foldl pickBetterDiscount none

/-- The cart attributes written by updateCartAttributes. -/
structure CartAttrs where
  rewards_count : Nat
  free_shipping : Bool
  discount_type : Option RewardType
  discount_value : Option (Option String)
deriving DecidableEq, Repr

/-- Embeds updateCartAttributes: rewards count, free-shipping flag, and
the best discount type and value when a discount tier is unlocked. -/
def updateCartAttributes (unlockedTiers : List RewardTier) : CartAttrs :=
  { rewards_count := unlockedTiers.length
    free_shipping := unlockedTiers.any fun t => decide (t.rewardType = RewardType.free_shipping)
    discount_type := (bestDiscount unlockedTiers).map fun b => b.rewardType
    discount_value := (bestDiscount unlockedTiers).map fun b => b.rewardValue }

/-- appliedRewards key: the pair modelling the rewardType-threshold
string key (the string form is injective back to the pair because
reward type names hold no hyphen). -/
def tierKey (t : RewardTier) : RewardType × Nat :=
  (t.rewardType, t.threshold)

/-- Collaborator outcomes during one reward pass: whether the product
lookup for a gift handle resolves, whether a matching free-gift line is
already in the mirrored cart snapshot, and whether a free-gift line
tagged with a given threshold is present for removal. -/
structure GiftEnv where
  productFetchOk : String → Bool
  giftAlreadyInCart : String → Bool
  giftLineFor : Nat → Bool

/-- A cart request issued by the reward pass. -/
inductive RewardMutation where
  | addGift (handle : String)
  | removeGift (threshold : Nat)
  | updateAttrs (attrs : CartAttrs)
deriving DecidableEq, Repr

/-- Embeds addFreeGiftToCart: a falsy value, a failed product lookup or
a duplicate line each return without issuing the cart add; every error
is swallowed, so the call always returns normally. -/
def addFreeGiftToCart (env : GiftEnv) (tier : RewardTier) : List RewardMutation :=
  if rewardValueTruthy tier.rewardValue = false then []
  else
    match tier.rewardValue with
    | none => []
    | some handle =>
      if env.productFetchOk handle = false then []
      else if env.giftAlreadyInCart handle then []
      else [.addGift handle]

/-- Embeds applyReward: only free_gift issues a cart mutation; the
other reward types merely log and are surfaced later through cart
attributes. -/
def applyReward (env : GiftEnv) (tier : RewardTier) : List RewardMutation :=
  match tier.rewardType with
  | .free_gift => addFreeGiftToCart env tier
  | _ => []

/-- Embeds removeReward plus removeFreeGiftFromCart: only a free_gift
tier with a truthy value and a matching tagged line issues a removal. -/
def removeReward (env : GiftEnv) (tier : RewardTier) : List RewardMutation :=
  if tier.rewardType = RewardType.free_gift ∧ rewardValueTruthy tier.rewardValue = true then
    if env.giftLineFor tier.threshold then [.removeGift tier.threshold] else []
  else []

/-- The engine state read and written by applyRewards: the applied
reward keys and the last observed unlocked-count and free-shipping
flag. -/
structure RewardsState where
  appliedRewards : List (RewardType × Nat)
  lastCount : Nat
  lastHasShipping : Bool
deriving DecidableEq, Repr

/-- Insert one tier into a threshold-ascending list, keeping earlier
equal-threshold tiers ahead. -/
def insertByThreshold (x : RewardTier) : List RewardTier → List RewardTier
  | [] => [x]
  | y :: ys => if x.threshold ≤ y.threshold then x :: y :: ys else y :: insertByThreshold x ys

/-- Stable ascending sort by threshold, modelling the stable JS
Array.sort with comparator (a.threshold - b.threshold). -/
def sortTiers : List RewardTier → List RewardTier
  | [] => []
  | x :: xs => insertByThreshold x (sortTiers xs)

/-- The unlocked tiers of a pass: sorted tiers whose threshold is
within the cart total. -/
def unlockedTiersOf (tiers : List RewardTier) (cartTotal : Nat) : List RewardTier :=
  (sortTiers tiers).filter fun t => decide (t.threshold ≤ cartTotal)

/-- The free-shipping membership of the unlocked set. -/
def hasShippingOf (tiers : List RewardTier) (cartTotal : Nat) : Bool :=
  (unlockedTiersOf tiers cartTotal).any fun t =>
    decide (t.rewardType = RewardType.free_shipping)

/-- The first loop of applyRewards: walk the unlocked tiers, skip keys
already applied, otherwise run the reward and append the key to the
applied set (unconditionally, whatever the reward outcome). -/
def applyPhase (env : GiftEnv) : List RewardTier → List (RewardType × Nat) →
    List (RewardType × Nat) × List RewardMutation
  | [], applied => (applied, [])
  | tier :: rest, applied =>
    if tierKey tier ∈ applied then applyPhase env rest applied
    else
      (fun r => (r.1, applyReward env tier ++ r.2))
        (applyPhase env rest (applied ++ [tierKey tier]))

/-- The second loop of applyRewards: walk the applied keys, keep those
still unlocked, and for the rest run removeReward when a matching tier
is found and drop the key in every case. -/
def removePhase (env : GiftEnv) (tiers : List RewardTier)
    (unlockedKeys : List (RewardType × Nat)) :
    List (RewardType × Nat) → List (RewardType × Nat) × List RewardMutation
  | [] => ([], [])
  | k :: rest =>
    if k ∈ unlockedKeys then
      (fun r => (k :: r.1, r.2)) (removePhase env tiers unlockedKeys rest)
    else
      (fun r =>
        (r.1,
          (match tiers.find? fun t =>
              decide (t.rewardType = k.1) && decide (t.threshold = k.2) with
            | some tier => removeReward env tier
            | none => []) ++ r.2))
        (removePhase env tiers unlockedKeys rest)

/-- Embeds applyRewards: early return without tiers, the apply loop,
the remove loop, and the attribute recompute guarded by the
count-or-shipping change test against the last observed state. -/
def applyRewards (env : GiftEnv) (tiers : List RewardTier) (cartTotal : Nat)
    (s : RewardsState) : RewardsState × List RewardMutation :=
  if tiers = [] then (s, [])
  else
    let unlocked := unlockedTiersOf tiers cartTotal
    let p1 := applyPhase env unlocked s.appliedRewards
    let p2 := removePhase env (sortTiers tiers) (unlocked.map tierKey) p1.1
    let hasShipping := hasShippingOf tiers cartTotal
    if unlocked.length = s.lastCount ∧ hasShipping = s.lastHasShipping then
      (⟨p2.1, s.lastCount, s.lastHasShipping⟩, p1.2 ++ p2.2)
    else
      (⟨p2.1, unlocked.length, hasShipping⟩,
        p1.2 ++ p2.2 ++ [RewardMutation.updateAttrs (updateCartAttributes unlocked)])

/-- Lower percent tier of the C5 witness. -/
def wTier5a : RewardTier := ⟨1000, .discount_percent, some "10"⟩

/-- Higher percent tier of the C5 witness. -/
def wTier5b : RewardTier := ⟨1500, .discount_percent, some "25"⟩

/-- Fixed tier of the C5 witness. -/
def wTier5f : RewardTier := ⟨2000, .discount_fixed, some "50"⟩

/-- Unlocked tiers of the C5 witness. -/
def wTiers5 : List RewardTier := [wTier5a, wTier5b, wTier5f]

/-- Environment of the C6 witness: product lookups succeed, nothing is
duplicated, no removable gift lines. -/
def wEnv6 : GiftEnv := ⟨fun _ => true, fun _ => false, fun _ => false⟩

/-- Tier list of the C6 witness: one free-shipping tier. -/
def wTiers6 : List RewardTier := [⟨1000, .free_shipping, none⟩]

/-- Initial state of the C6 witness. -/
def wState6 : RewardsState := ⟨[], 0, false⟩

/-- Environment of the C7 counterexample and witness: the product
lookup fails, so the free-gift cart mutation is never issued. -/
def wEnv7 : GiftEnv := ⟨fun _ => false, fun _ => false, fun _ => false⟩

/-- Free-gift tier of the C7 counterexample. -/
def wTier7 : RewardTier := ⟨1000, .free_gift, some "gift"⟩

/-- Free-gift tier of the C7 witness. -/
def wTier7b : RewardTier := ⟨500, .free_gift, some "g2"⟩

/-- Initial state of the C7 counterexample and witness. -/
def wState7 : RewardsState := ⟨[], 0, false⟩

theorem qualifyingQtyList_eq_spec (items : List CartItem) (offer : BxgyOffer) :
    qualifyingQtyList items offer =
      ((items.filter (bxgyQualifiesNonFree offer)).map fun i => i.quantity).sum := by
  induction items with
  | nil => rfl
  | cons item rest ih =>
    by_cases h1 : item.prop_free_gift <;> by_cases h2 : item.prop_bxgy_free <;>
      by_cases h3 : itemQualifiesForBxgy item offer <;>
      simp [qualifyingQtyList, bxgyQualifiesNonFree, h1, h2, h3, ih]

theorem calculateBxgyQualifyingQuantity_eq_spec (cart : Cart) (offer : BxgyOffer) :
    calculateBxgyQualifyingQuantity cart offer = specQualifyingQty cart offer :=
  qualifyingQtyList_eq_spec cart.items offer

/-- C1: in cheapest_in_cart mode with buyQuantity B at least 1 and
getQuantity G at least 1, the entitlement computed by updateBxgyProgress
equals max 0 (min G (Q - B)) over the qualifying quantity Q (sum of
quantities of predicate-satisfying lines, excluding lines tagged
_popcart_free_gift or _popcart_bxgy_free); in particular Q = B earns
zero free items. -/
theorem bxgy_cheapest_entitlement (cart : Cart) (offer : BxgyOffer) (B G : Nat)
    (hmode : effRewardMode offer = .cheapest_in_cart)
    (hB : offer.buyQuantity = some B) (hB1 : 1 ≤ B)
    (hG : offer.getQuantity = some G) (hG1 : 1 ≤ G) :
    bxgyEarnedFreeItems cart offer =
      max 0 (min (G : Int) ((specQualifyingQty cart offer : Int) - (B : Int))) ∧
    (specQualifyingQty cart offer = B → bxgyEarnedFreeItems cart offer = 0) := by
  have hBe : effBuyQty offer = B := by
    cases B with
    | zero => omega
    | succ n => simp [effBuyQty, hB]
  have hGe : effGetQty offer = G := by
    cases G with
    | zero => omega
    | succ n => simp [effGetQty, hG]
  have hq := calculateBxgyQualifyingQuantity_eq_spec cart offer
  constructor
  · simp [bxgyEarnedFreeItems, hmode, hBe, hGe, hq]
  · intro hQ
    simp only [bxgyEarnedFreeItems, hmode, hBe, hGe, hq, hQ]
    omega

/-- Witness for C1 at a concrete cart and offer. -/
theorem bxgy_cheapest_entitlement_witness :
    bxgyEarnedFreeItems wCart1 wOffer1 =
      max 0 (min (3 : Int) ((specQualifyingQty wCart1 wOffer1 : Int) - (3 : Int))) ∧
    (specQualifyingQty wCart1 wOffer1 = 3 → bxgyEarnedFreeItems wCart1 wOffer1 = 0) :=
  bxgy_cheapest_entitlement wCart1 wOffer1 3 3 (by decide) rfl (by decide) rfl (by decide)

/-- C4: in selection or automatic mode with buyQuantity B at least 1 and
getQuantity G at least 1, both entitlement computations (in
updateBxgyProgress and at the top of applyBxgyRewards) equal
floor(Q / B) * G; reaching exactly Q = B grants the first cycle of G
free items. -/
theorem bxgy_cycle_entitlement (cart : Cart) (offer : BxgyOffer) (B G : Nat)
    (hmode : effRewardMode offer = .selection ∨ effRewardMode offer = .automatic)
    (hB : offer.buyQuantity = some B) (hB1 : 1 ≤ B)
    (hG : offer.getQuantity = some G) (hG1 : 1 ≤ G) :
    bxgyEarnedFreeItems cart offer = ((specQualifyingQty cart offer / B) * G : Nat) ∧
    applyBxgyEarnedFreeItems cart offer = (specQualifyingQty cart offer / B) * G ∧
    (specQualifyingQty cart offer = B →
      bxgyEarnedFreeItems cart offer = G ∧ applyBxgyEarnedFreeItems cart offer = G) := by
  have hBe : effBuyQty offer = B := by
    cases B with
    | zero => omega
    | succ n => simp [effBuyQty, hB]
  have hGe : effGetQty offer = G := by
    cases G with
    | zero => omega
    | succ n => simp [effGetQty, hG]
  have hq := calculateBxgyQualifyingQuantity_eq_spec cart offer
  have hdiv : B / B = 1 := Nat.div_self (by omega)
  refine ⟨?_, ?_, ?_⟩
  · rcases hmode with hmode | hmode <;> simp [bxgyEarnedFreeItems, hmode, hBe, hGe, hq]
  · simp [applyBxgyEarnedFreeItems, hBe, hGe, hq]
  · intro hQ
    constructor
    · rcases hmode with hmode | hmode <;>
        simp [bxgyEarnedFreeItems, hmode, hBe, hGe, hq, hQ, hdiv]
    · simp [applyBxgyEarnedFreeItems, hBe, hGe, hq, hQ, hdiv]

/-- Witness for C4 at a concrete cart and offer. -/
theorem bxgy_cycle_entitlement_witness :
    bxgyEarnedFreeItems wCart4 wOffer4 = ((specQualifyingQty wCart4 wOffer4 / 3) * 1 : Nat) ∧
    applyBxgyEarnedFreeItems wCart4 wOffer4 = (specQualifyingQty wCart4 wOffer4 / 3) * 1 ∧
    (specQualifyingQty wCart4 wOffer4 = 3 →
      bxgyEarnedFreeItems wCart4 wOffer4 = 1 ∧ applyBxgyEarnedFreeItems wCart4 wOffer4 = 1) :=
  bxgy_cycle_entitlement wCart4 wOffer4 3 1 (Or.inl (by decide)) rfl (by decide) rfl (by decide)

/-- C10: every cart item qualifies for a collection-scoped BXGY offer
(the collection membership is never checked: fail-open), whereas a
products-scoped offer whose product-id list is malformed matches
nothing. -/
theorem bxgy_collection_fail_open (item : CartItem) (offer : BxgyOffer) :
    (offer.appliesToType = .collection → itemQualifiesForBxgy item offer = true) ∧
    (offer.appliesToType = .products → offer.productIds = some none →
      itemQualifiesForBxgy item offer = false) := by
  constructor
  · intro h; simp [itemQualifiesForBxgy, h]
  · intro h hp; simp [itemQualifiesForBxgy, h, hp]

/-- Witness for C10 at a concrete item, a collection offer and a
malformed products offer. -/
theorem bxgy_collection_fail_open_witness :
    itemQualifiesForBxgy wItem10 wOffer10a = true ∧
    itemQualifiesForBxgy wItem10 wOffer10b = false :=
  ⟨(bxgy_collection_fail_open wItem10 wOffer10a).1 (by decide),
   (bxgy_collection_fail_open wItem10 wOffer10b).2 (by decide) (by decide)⟩

theorem insertByPrice_perm (x : QItem) (l : List QItem) :
    (insertByPrice x l).Perm (x :: l) := by
  induction l with
  | nil => exact List.Perm.refl _
  | cons y ys ih =>
    by_cases h : x.unitPrice ≤ y.unitPrice
    · simp [insertByPrice, h]
    · simp only [insertByPrice, if_neg h]
      exact (ih.cons y).trans (List.Perm.swap x y ys)

theorem sortByPrice_perm (l : List QItem) : (sortByPrice l).Perm l := by
  induction l with
  | nil => exact List.Perm.refl _
  | cons x xs ih => exact (insertByPrice_perm x (sortByPrice xs)).trans (ih.cons x)

theorem allocateFreeUnits_sum (l : List QItem) (n : Nat) :
    ((allocateFreeUnits l n).map Prod.snd).sum =
      min n ((l.map fun i => i.quantity).sum) := by
  induction l generalizing n with
  | nil => simp [allocateFreeUnits]
  | cons i is ih =>
    by_cases hn : n = 0
    · simp [allocateFreeUnits, hn]
    · simp only [allocateFreeUnits, if_neg hn, List.map_cons, List.sum_cons]
      rw [ih]
      omega

theorem allocateFreeUnits_mem (l : List QItem) (n : Nat) :
    ∀ p ∈ allocateFreeUnits l n, ∃ i ∈ l, i.key = p.1 ∧ p.2 ≤ i.quantity := by
  induction l generalizing n with
  | nil => simp [allocateFreeUnits]
  | cons i is ih =>
    by_cases hn : n = 0
    · simp [allocateFreeUnits, hn]
    · intro p hp
      simp only [allocateFreeUnits, if_neg hn, List.mem_cons] at hp
      rcases hp with hp | hp
      · exact ⟨i, List.mem_cons_self i is, by simp [hp], by simp [hp, Nat.min_le_left]⟩
      · obtain ⟨j, hj, hk, hq⟩ := ih _ p hp
        exact ⟨j, List.mem_cons_of_mem i hj, hk, hq⟩

/-- C2: the cheapest-item allocator walks the qualifying non-free lines
in ascending unit-price order (stable sort) and greedily allocates
min(remaining, quantity) per line; the allocation sums to
min(N, total qualifying quantity), never exceeds any line quantity, and
the worked example (A at 500 qty 3, B at 200 qty 2, C at 800 qty 1,
entitlement 3) yields B with 2 free units then A with 1, C untouched. -/
theorem cheapest_allocator_guarantee (cart : Cart) (offer : BxgyOffer) (n : Nat) :
    (((calculateCheapestFreeItems cart offer n).map Prod.snd).sum =
      min n (specQualifyingQty cart offer)) ∧
    (∀ p ∈ calculateCheapestFreeItems cart offer n,
      ∃ i ∈ cart.items, bxgyQualifiesNonFree offer i = true ∧ i.key = p.1 ∧
        p.2 ≤ i.quantity) ∧
    calculateCheapestFreeItems wCart2 wOffer2 3 = [("B", 2), ("A", 1)] := by
  refine ⟨?_, ?_, by decide⟩
  · by_cases hn : n = 0
    · simp [calculateCheapestFreeItems, hn, specQualifyingQty]
    · simp only [calculateCheapestFreeItems, if_neg hn]
      rw [allocateFreeUnits_sum]
      have hperm :
          ((sortByPrice ((cart.items.filter (bxgyQualifiesNonFree offer)).map toQItem)).map
              fun i => i.quantity).Perm
            (((cart.items.filter (bxgyQualifiesNonFree offer)).map toQItem).map
              fun i => i.quantity) :=
        (sortByPrice_perm _).map _
      rw [hperm.sum_eq]
      simp [specQualifyingQty, List.map_map, Function.comp_def, toQItem]
  · intro p hp
    by_cases hn : n = 0
    · simp [calculateCheapestFreeItems, hn] at hp
    · simp only [calculateCheapestFreeItems, if_neg hn] at hp
      obtain ⟨q, hq, hk, hle⟩ := allocateFreeUnits_mem _ _ p hp
      have hq2 : q ∈ (cart.items.filter (bxgyQualifiesNonFree offer)).map toQItem :=
        (sortByPrice_perm _).mem_iff.mp hq
      obtain ⟨i, hi, hqi⟩ := List.mem_map.mp hq2
      have hi2 := List.mem_filter.mp hi
      refine ⟨i, hi2.1, hi2.2, ?_, ?_⟩
      · rw [← hk, ← hqi]; rfl
      · calc p.2 ≤ q.quantity := hle
          _ = i.quantity := by rw [← hqi]; rfl

theorem removeBxgyLoop_total (fetchOk : String → Bool) (ls : List CartItem)
    (hok : ∀ k, fetchOk k = true) (hpos : ∀ l ∈ ls, 1 ≤ l.quantity) :
    removeBxgyLoop fetchOk ls ((ls.map fun l => l.quantity).sum) =
      ⟨ls.map fun l => LineChange.mk l.key 0, false⟩ := by
  induction ls with
  | nil => rfl
  | cons l ls ih =>
    have h1 : 1 ≤ l.quantity := hpos l (List.mem_cons_self l ls)
    have hne : l.quantity + ((ls.map fun l => l.quantity).sum) ≠ 0 := by omega
    have hmin : min l.quantity (l.quantity + (ls.map fun l => l.quantity).sum) =
        l.quantity := by omega
    simp only [removeBxgyLoop, List.map_cons, List.sum_cons, if_neg hne, hok l.key,
      if_true, hmin]
    rw [Nat.add_sub_cancel_left, Nat.sub_self,
      ih fun x hx => hpos x (List.mem_cons_of_mem l hx)]

theorem bxgyOfferAction_cooldownSkip (o : BxgyOffer) (c : Cart) (u : Nat)
    (hskip : applyBxgyOfferAction o c u = .cooldownSkip) :
    effRewardMode o = .selection ∧ 0 < applyBxgyEarnedFreeItems c o ∧
      applyBxgyEarnedFreeItems c o < countBxgyFree c ∧ u < 2000 := by
  unfold applyBxgyOfferAction at hskip
  cases hm : effRewardMode o <;> simp only [hm] at hskip
  · simp at hskip
  · by_cases h1 : applyBxgyEarnedFreeItems c o = 0 ∧ 0 < countBxgyFree c
    · rw [if_pos h1] at hskip; simp at hskip
    · rw [if_neg h1] at hskip
      by_cases h2 : applyBxgyEarnedFreeItems c o < countBxgyFree c
      · rw [if_pos h2] at hskip
        by_cases h3 : u < 2000
        · exact ⟨rfl, by omega, h2, h3⟩
        · rw [if_neg h3] at hskip; simp at hskip
      · rw [if_neg h2] at hskip
        by_cases h3 : 0 < applyBxgyEarnedFreeItems c o <;> simp [h3] at hskip
  · by_cases h1 : applyBxgyEarnedFreeItems c o = 0 ∧ 0 < countBxgyFree c
    · rw [if_pos h1] at hskip; simp at hskip
    · rw [if_neg h1] at hskip
      by_cases h2 : 2000 ≤ u <;> simp [h2] at hskip

/-- C3: in selection mode a pass that computes entitlement zero while
tagged free lines exist dispatches an immediate removal of all of them
in that same pass, for every cooldown state; executing that removal
with every call succeeding zeroes every tagged line; and a cooldown
skip can only arise when the entitlement is still positive but below
the current free-line count. -/
theorem selection_zero_entitlement_removal (offer : BxgyOffer) (cart : Cart) (t : Nat)
    (fetchOk : String → Bool) (o : BxgyOffer) (c : Cart) (u : Nat)
    (hmode : effRewardMode offer = .selection)
    (hzero : applyBxgyEarnedFreeItems cart offer = 0)
    (hfree : 0 < countBxgyFree cart)
    (hpos : ∀ i ∈ cart.items, i.prop_bxgy_free = true → 1 ≤ i.quantity)
    (hok : ∀ k, fetchOk k = true)
    (hskip : applyBxgyRewardsAction true [o] c u = .cooldownSkip) :
    applyBxgyRewardsAction true [offer] cart t = .removeAllFree (countBxgyFree cart) ∧
    removeBxgyFreeItems fetchOk cart (countBxgyFree cart) =
      ⟨(cart.items.filter fun i => i.prop_bxgy_free).map fun i => LineChange.mk i.key 0,
        false⟩ ∧
    effRewardMode o = .selection ∧ 0 < applyBxgyEarnedFreeItems c o ∧
      applyBxgyEarnedFreeItems c o < countBxgyFree c ∧ u < 2000 := by
  refine ⟨?_, ?_, ?_⟩
  · simp [applyBxgyRewardsAction, applyBxgyOfferAction, hmode, hzero, hfree]
  · have hq : countBxgyFree cart ≠ 0 := by omega
    have hp : ∀ l ∈ cart.items.filter fun i => i.prop_bxgy_free, 1 ≤ l.quantity := by
      intro l hl
      have := List.mem_filter.mp hl
      exact hpos l this.1 this.2
    simp only [removeBxgyFreeItems, if_neg hq]
    exact removeBxgyLoop_total fetchOk _ hok hp
  · have hskip2 : applyBxgyOfferAction o c u = .cooldownSkip := by
      simpa [applyBxgyRewardsAction] using hskip
    exact bxgyOfferAction_cooldownSkip o c u hskip2

/-- Witness for C3: zero entitlement with a tagged free line dispatches
the full removal at cooldown state 0, the removal zeroes the line, and
a concrete cooldown skip arises only from a positive entitlement below
the free count. -/
theorem selection_zero_entitlement_removal_witness :
    applyBxgyRewardsAction true [wOffer3] wCart3 0 =
      .removeAllFree (countBxgyFree wCart3) ∧
    removeBxgyFreeItems (fun _ => true) wCart3 (countBxgyFree wCart3) =
      ⟨(wCart3.items.filter fun i => i.prop_bxgy_free).map fun i => LineChange.mk i.key 0,
        false⟩ ∧
    effRewardMode wOffer3s = .selection ∧ 0 < applyBxgyEarnedFreeItems wCart3s wOffer3s ∧
      applyBxgyEarnedFreeItems wCart3s wOffer3s < countBxgyFree wCart3s ∧ 100 < 2000 :=
  selection_zero_entitlement_removal wOffer3 wCart3 0 (fun _ => true) wOffer3s wCart3s 100
    (by decide) (by decide) (by decide) (by decide) (fun _ => rfl) (by decide)

/-- Counterexample to C8 as stated: with two tagged free lines and a
removal count of 2, a rejected call on line a ends the batch with no
change recorded for line b, although an all-success run would zero
both lines; removal does not continue past a failure. -/
theorem remove_batch_abort_counterexample :
    removeBxgyFreeItems wFetch8 wCart8 2 = ⟨[], true⟩ ∧
    removeBxgyFreeItems (fun _ => true) wCart8 2 =
      ⟨[LineChange.mk "a" 0, LineChange.mk "b" 0], false⟩ := by
  constructor <;> rfl

/-- C8 amended: a failure while removing one line ends the whole batch
(one try/catch wraps the loop), so the lines after the first failing
line are never attempted and the result does not depend on them. -/
theorem remove_batch_abort (fetchOk : String → Bool) (pre post : List CartItem)
    (failLine : CartItem) (q : Nat)
    (hpre : ∀ l ∈ pre, fetchOk l.key = true)
    (hfail : fetchOk failLine.key = false) :
    removeBxgyLoop fetchOk (pre ++ failLine :: post) q =
      removeBxgyLoop fetchOk (pre ++ [failLine]) q := by
  induction pre generalizing q with
  | nil => by_cases hq : q = 0 <;> simp [removeBxgyLoop, hq, hfail]
  | cons x xs ih =>
    by_cases hq : q = 0
    · simp [removeBxgyLoop, hq]
    · have hx : fetchOk x.key = true := hpre x (List.mem_cons_self x xs)
      simp only [List.cons_append, removeBxgyLoop, if_neg hq, hx, if_true]
      exact congrArg
        (fun r => RemovalResult.mk
          (LineChange.mk x.key (x.quantity - min x.quantity q) :: r.changes) r.aborted)
        (ih (q - min x.quantity q) (fun l hl => hpre l (List.mem_cons_of_mem x hl)))

/-- Witness for the amended C8: with the call for line b rejected, the
batch over lines a, b, c equals the batch over a, b alone; line c is
never attempted. -/
theorem remove_batch_abort_witness :
    removeBxgyLoop wFetch8b [wLineA, wLineB, wLineC] 3 =
      removeBxgyLoop wFetch8b [wLineA, wLineB] 3 :=
  remove_batch_abort wFetch8b [wLineA] [wLineC] wLineB 3 (by decide) (by decide)

/-- Counterexample to C9 as stated: with a cheapest-mode first offer
and a selection-mode second offer over a cart holding one tagged free
line, the pass dispatches only the first offer (no mutation), although
the second offer evaluated alone dispatches an immediate removal; the
second offer is never evaluated. -/
theorem bxgy_pass_second_offer_ignored :
    applyBxgyRewardsAction true [wOffer9a, wOffer9b] wCart9 5000 = .cheapestNoMutation ∧
    applyBxgyRewardsAction true [wOffer9b] wCart9 5000 = .removeAllFree 1 := by
  constructor <;> rfl

/-- C9 amended: within a pass the BxgyEngine reads only bxgyOffers[0]:
the dispatch over any offer list equals the dispatch over its first
element alone, so offers past the first are ignored. -/
theorem bxgy_pass_first_offer_only (enabled : Bool) (offers : List BxgyOffer)
    (cart : Cart) (t : Nat) :
    applyBxgyRewardsAction enabled offers cart t =
      applyBxgyRewardsAction enabled (offers.take 1) cart t := by
  cases offers <;> cases enabled <;> simp [applyBxgyRewardsAction]

theorem pfGt_eq_true_iff (a b : PFloat) : pfGt a b = true ↔ pfVal b < pfVal a := by
  have h1 : (0:ℚ) < (10:ℚ) ^ a.den10 := by positivity
  have h2 : (0:ℚ) < (10:ℚ) ^ b.den10 := by positivity
  unfold pfGt pfVal
  rw [decide_eq_true_iff, div_lt_div_iff h2 h1]
  constructor
  · intro h
    exact_mod_cast h
  · intro h
    exact_mod_cast h

theorem pfGt_true_lt {a b : PFloat} (h : pfGt a b = true) : pfVal b < pfVal a :=
  (pfGt_eq_true_iff a b).mp h

theorem pfGt_false_le {a b : PFloat} (h : pfGt a b = false) : pfVal a ≤ pfVal b :=
  le_of_not_lt fun hlt => by simp [(pfGt_eq_true_iff a b).mpr hlt] at h

theorem pickBetter_foldl_spec (ds : List RewardTier) : ∀ (a : RewardTier),
    (∀ t ∈ ds, isDiscountTier t = true) → isDiscountTier a = true →
    (∀ t ∈ ds, (tierValue t).isSome = true) → (tierValue a).isSome = true →
    ∃ b, ds.foldl pickBetterDiscount (some a) = some b ∧
      (b ∈ ds ∨ b = a) ∧
      (b.rewardType = RewardType.discount_percent ↔
        (a.rewardType = RewardType.discount_percent ∨
          ∃ t, t ∈ ds ∧ t.rewardType = RewardType.discount_percent)) ∧
      (∀ t ∈ ds, t.rewardType = b.rewardType → valOf t ≤ valOf b) ∧
      (a.rewardType = b.rewardType → valOf a ≤ valOf b) := by
  induction ds with
  | nil =>
    intro a _ _ _ _
    exact ⟨a, rfl, Or.inr rfl, by simp, by simp, fun _ => le_refl _⟩
  | cons t ds ih =>
    intro a hdisc ha hvals hav
    have ht : isDiscountTier t = true := hdisc t (List.mem_cons_self t ds)
    have htv : (tierValue t).isSome = true := hvals t (List.mem_cons_self t ds)
    have hoT : t.rewardType = RewardType.discount_percent ∨
        t.rewardType = RewardType.discount_fixed := of_decide_eq_true ht
    have hoA : a.rewardType = RewardType.discount_percent ∨
        a.rewardType = RewardType.discount_fixed := of_decide_eq_true ha
    have hdisc2 : ∀ u ∈ ds, isDiscountTier u = true :=
      fun u hu => hdisc u (List.mem_cons_of_mem t hu)
    have hvals2 : ∀ u ∈ ds, (tierValue u).isSome = true :=
      fun u hu => hvals u (List.mem_cons_of_mem t hu)
    obtain ⟨x, hx⟩ := Option.isSome_iff_exists.mp htv
    obtain ⟨y, hy⟩ := Option.isSome_iff_exists.mp hav
    rcases hoT with htP | htF <;> rcases hoA with haP | haF
    · -- both percent: the larger parsed value wins
      have hm : pickBetterDiscount (some a) t =
          some (if qGtOpt (tierValue t) (tierValue a) = true then t else a) := by
        simp [pickBetterDiscount, htP, haP]
      by_cases hq : qGtOpt (tierValue t) (tierValue a) = true
      · obtain ⟨b, hfold, hmem, hiff, hbnd, hwb⟩ := ih t hdisc2 ht hvals2 htv
        have hbP : b.rewardType = RewardType.discount_percent := hiff.mpr (Or.inl htP)
        have hlt : pfVal y < pfVal x := by
          rw [hx, hy] at hq
          exact pfGt_true_lt (by simpa [qGtOpt] using hq)
        refine ⟨b, ?_, ?_, ?_, ?_, ?_⟩
        · rw [List.foldl_cons, hm, if_pos hq]; exact hfold
        · rcases hmem with h | h
          · exact Or.inl (List.mem_cons_of_mem t h)
          · exact Or.inl (by rw [h]; exact List.mem_cons_self t ds)
        · exact iff_of_true hbP (Or.inl haP)
        · intro u hu hub
          rcases List.mem_cons.mp hu with h | h
          · subst h
            exact hwb hub
          · exact hbnd u h hub
        · intro hab
          have h1 : valOf a ≤ valOf t := by
            simp only [valOf, hx, hy, Option.map_some, Option.getD_some]
            exact le_of_lt hlt
          exact le_trans h1 (hwb (htP.trans hbP.symm))
      · obtain ⟨b, hfold, hmem, hiff, hbnd, hwb⟩ := ih a hdisc2 ha hvals2 hav
        have hbP : b.rewardType = RewardType.discount_percent := hiff.mpr (Or.inl haP)
        have hqf : qGtOpt (tierValue t) (tierValue a) = false :=
          Bool.not_eq_true _ ▸ hq
        have hle : pfVal x ≤ pfVal y := by
          rw [hx, hy] at hqf
          exact pfGt_false_le (by simpa [qGtOpt] using hqf)
        refine ⟨b, ?_, ?_, ?_, ?_, ?_⟩
        · rw [List.foldl_cons, hm, if_neg hq]; exact hfold
        · rcases hmem with h | h
          · exact Or.inl (List.mem_cons_of_mem t h)
          · exact Or.inr h
        · exact iff_of_true hbP (Or.inl haP)
        · intro u hu hub
          rcases List.mem_cons.mp hu with h | h
          · subst h
            have h2 : valOf u ≤ valOf a := by
              simp only [valOf, hx, hy, Option.map_some, Option.getD_some]
              exact hle
            exact le_trans h2 (hwb (haP.trans hbP.symm))
          · exact hbnd u h hub
        · exact hwb
    · -- t percent, a fixed: t replaces a
      have hm : pickBetterDiscount (some a) t = some t := by
        simp [pickBetterDiscount, htP, haF]
      obtain ⟨b, hfold, hmem, hiff, hbnd, hwb⟩ := ih t hdisc2 ht hvals2 htv
      have hbP : b.rewardType = RewardType.discount_percent := hiff.mpr (Or.inl htP)
      refine ⟨b, ?_, ?_, ?_, ?_, ?_⟩
      · rw [List.foldl_cons, hm]; exact hfold
      · rcases hmem with h | h
        · exact Or.inl (List.mem_cons_of_mem t h)
        · exact Or.inl (by rw [h]; exact List.mem_cons_self t ds)
      · exact iff_of_true hbP (Or.inr ⟨t, List.mem_cons_self t ds, htP⟩)
      · intro u hu hub
        rcases List.mem_cons.mp hu with h | h
        · subst h
          exact hwb hub
        · exact hbnd u h hub
      · intro hab
        have hbF : b.rewardType = RewardType.discount_fixed := by rw [← hab, haF]
        exact absurd (hbP.symm.trans hbF) (by decide)
    · -- t fixed, a percent: a stays
      have hm : pickBetterDiscount (some a) t = some a := by
        simp [pickBetterDiscount, htF, haP]
      obtain ⟨b, hfold, hmem, hiff, hbnd, hwb⟩ := ih a hdisc2 ha hvals2 hav
      have hbP : b.rewardType = RewardType.discount_percent := hiff.mpr (Or.inl haP)
      refine ⟨b, ?_, ?_, ?_, ?_, ?_⟩
      · rw [List.foldl_cons, hm]; exact hfold
      · rcases hmem with h | h
        · exact Or.inl (List.mem_cons_of_mem t h)
        · exact Or.inr h
      · exact iff_of_true hbP (Or.inl haP)
      · intro u hu hub
        rcases List.mem_cons.mp hu with h | h
        · subst h
          rw [htF] at hub
          exact absurd (hub.trans hbP) (by decide)
        · exact hbnd u h hub
      · exact hwb
    · -- both fixed: the larger parsed value wins
      have hm : pickBetterDiscount (some a) t =
          some (if qGtOpt (tierValue t) (tierValue a) = true then t else a) := by
        simp [pickBetterDiscount, htF, haF]
      by_cases hq : qGtOpt (tierValue t) (tierValue a) = true
      · obtain ⟨b, hfold, hmem, hiff, hbnd, hwb⟩ := ih t hdisc2 ht hvals2 htv
        have hlt : pfVal y < pfVal x := by
          rw [hx, hy] at hq
          exact pfGt_true_lt (by simpa [qGtOpt] using hq)
        refine ⟨b, ?_, ?_, ?_, ?_, ?_⟩
        · rw [List.foldl_cons, hm, if_pos hq]; exact hfold
        · rcases hmem with h | h
          · exact Or.inl (List.mem_cons_of_mem t h)
          · exact Or.inl (by rw [h]; exact List.mem_cons_self t ds)
        · constructor
          · intro hb
            rcases hiff.mp hb with h | ⟨u, hu, huP⟩
            · exact absurd (htF.symm.trans h) (by decide)
            · exact Or.inr ⟨u, List.mem_cons_of_mem t hu, huP⟩
          · intro h
            rcases h with h | ⟨u, hu, huP⟩
            · exact absurd (haF.symm.trans h) (by decide)
            · rcases List.mem_cons.mp hu with h2 | h2
              · exact absurd (htF.symm.trans (h2 ▸ huP)) (by decide)
              · exact hiff.mpr (Or.inr ⟨u, h2, huP⟩)
        · intro u hu hub
          rcases List.mem_cons.mp hu with h | h
          · subst h
            exact hwb hub
          · exact hbnd u h hub
        · intro hab
          have hbF : b.rewardType = RewardType.discount_fixed := by rw [← hab, haF]
          have h1 : valOf a ≤ valOf t := by
            simp only [valOf, hx, hy, Option.map_some, Option.getD_some]
            exact le_of_lt hlt
          exact le_trans h1 (hwb (htF.trans hbF.symm))
      · obtain ⟨b, hfold, hmem, hiff, hbnd, hwb⟩ := ih a hdisc2 ha hvals2 hav
        have hqf : qGtOpt (tierValue t) (tierValue a) = false :=
          Bool.not_eq_true _ ▸ hq
        have hle : pfVal x ≤ pfVal y := by
          rw [hx, hy] at hqf
          exact pfGt_false_le (by simpa [qGtOpt] using hqf)
        refine ⟨b, ?_, ?_, ?_, ?_, ?_⟩
        · rw [List.foldl_cons, hm, if_neg hq]; exact hfold
        · rcases hmem with h | h
          · exact Or.inl (List.mem_cons_of_mem t h)
          · exact Or.inr h
        · constructor
          · intro hb
            rcases hiff.mp hb with h | ⟨u, hu, huP⟩
            · exact absurd (haF.symm.trans h) (by decide)
            · exact Or.inr ⟨u, List.mem_cons_of_mem t hu, huP⟩
          · intro h
            rcases h with h | ⟨u, hu, huP⟩
            · exact absurd (haF.symm.trans h) (by decide)
            · rcases List.mem_cons.mp hu with h2 | h2
              · exact absurd (htF.symm.trans (h2 ▸ huP)) (by decide)
              · exact hiff.mpr (Or.inr ⟨u, h2, huP⟩)
        · intro u hu hub
          rcases List.mem_cons.mp hu with h | h
          · subst h
            have hbF : b.rewardType = RewardType.discount_fixed := by rw [← hub, htF]
            have h2 : valOf u ≤ valOf a := by
              simp only [valOf, hx, hy, Option.map_some, Option.getD_some]
              exact hle
            exact le_trans h2 (hwb (haF.trans hbF.symm))
          · exact hbnd u h hub
        · exact hwb

/-- C5: the best discount written to cart attributes is a member of the
unlocked discount tiers, its type and value are the attribute payload,
any percent tier being unlocked forces the percent type (regardless of
the numeric values), and within the chosen type the parsed value of the
winner bounds every unlocked tier of that type, independently of
listing order. -/
theorem best_discount_selection (ul : List RewardTier) (b t : RewardTier)
    (hvals : ∀ u ∈ ul.filter isDiscountTier, (tierValue u).isSome = true)
    (hbest : bestDiscount ul = some b)
    (ht : t ∈ ul.filter isDiscountTier) :
    b ∈ ul.filter isDiscountTier ∧
    (updateCartAttributes ul).discount_type = some b.rewardType ∧
    (updateCartAttributes ul).discount_value = some b.rewardValue ∧
    (t.rewardType = RewardType.discount_percent →
      b.rewardType = RewardType.discount_percent) ∧
    (t.rewardType = b.rewardType → valOf t ≤ valOf b) := by
  have hbest0 := hbest
  have hdiscAll : ∀ u ∈ ul.filter isDiscountTier, isDiscountTier u = true :=
    fun u hu => (List.mem_filter.mp hu).2
  cases hds : ul.filter isDiscountTier with
  | nil => rw [bestDiscount, hds] at hbest; exact absurd hbest (by simp)
  | cons a rest =>
    rw [bestDiscount, hds, List.foldl_cons] at hbest
    have hpick : pickBetterDiscount none a = some a := rfl
    rw [hpick] at hbest
    obtain ⟨b', hfold, hmem, hiff, hbnd, hab⟩ :=
      pickBetter_foldl_spec rest a
        (fun u hu => hdiscAll u (by rw [hds]; exact List.mem_cons_of_mem a hu))
        (hdiscAll a (by rw [hds]; exact List.mem_cons_self a rest))
        (fun u hu => hvals u (by rw [hds]; exact List.mem_cons_of_mem a hu))
        (hvals a (by rw [hds]; exact List.mem_cons_self a rest))
    rw [hfold] at hbest
    injection hbest with hbb
    subst hbb
    refine ⟨?_, ?_, ?_, ?_, ?_⟩
    · rcases hmem with h | h
      · exact List.mem_cons_of_mem a h
      · rw [h]; exact List.mem_cons_self a rest
    · simp [updateCartAttributes, hbest0]
    · simp [updateCartAttributes, hbest0]
    · intro htP
      rw [hds] at ht
      rcases List.mem_cons.mp ht with h | h
      · exact hiff.mpr (Or.inl (h ▸ htP))
      · exact hiff.mpr (Or.inr ⟨t, h, htP⟩)
    · intro htb
      rw [hds] at ht
      rcases List.mem_cons.mp ht with h | h
      · exact h ▸ hab (h ▸ htb)
      · exact hbnd t h htb

/-- Witness for C5 at three concrete unlocked tiers: ten percent,
twenty-five percent and fifty fixed; the twenty-five percent tier wins
and bounds the ten percent tier. -/
theorem best_discount_selection_witness :
    wTier5b ∈ wTiers5.filter isDiscountTier ∧
    (updateCartAttributes wTiers5).discount_type = some wTier5b.rewardType ∧
    (updateCartAttributes wTiers5).discount_value = some wTier5b.rewardValue ∧
    (wTier5a.rewardType = RewardType.discount_percent →
      wTier5b.rewardType = RewardType.discount_percent) ∧
    (wTier5a.rewardType = wTier5b.rewardType → valOf wTier5a ≤ valOf wTier5b) :=
  best_discount_selection wTiers5 wTier5b wTier5a (by decide) (by decide) (by decide)

theorem applyPhase_mem (env : GiftEnv) (ul : List RewardTier)
    (applied : List (RewardType × Nat)) (k : RewardType × Nat) :
    k ∈ (applyPhase env ul applied).1 ↔ k ∈ applied ∨ k ∈ ul.map tierKey := by
  induction ul generalizing applied with
  | nil => simp [applyPhase]
  | cons tier rest ih =>
    by_cases h : tierKey tier ∈ applied
    · simp only [applyPhase, if_pos h, List.map_cons, List.mem_cons]
      rw [ih]
      constructor
      · rintro (h1 | h1)
        · exact Or.inl h1
        · exact Or.inr (Or.inr h1)
      · rintro (h1 | h1 | h1)
        · exact Or.inl h1
        · exact Or.inl (h1 ▸ h)
        · exact Or.inr h1
    · simp only [applyPhase, if_neg h, List.map_cons, List.mem_cons]
      rw [ih]
      simp only [List.mem_append, List.mem_singleton]
      tauto

theorem applyPhase_noop (env : GiftEnv) (ul : List RewardTier)
    (applied : List (RewardType × Nat))
    (h : ∀ t ∈ ul, tierKey t ∈ applied) :
    applyPhase env ul applied = (applied, []) := by
  induction ul with
  | nil => rfl
  | cons tier rest ih =>
    simp only [applyPhase, if_pos (h tier (List.mem_cons_self tier rest))]
    exact ih fun t htm => h t (List.mem_cons_of_mem tier htm)

theorem removePhase_kept (env : GiftEnv) (tiers : List RewardTier)
    (uk : List (RewardType × Nat)) (applied : List (RewardType × Nat)) :
    (removePhase env tiers uk applied).1 =
      applied.filter fun k => decide (k ∈ uk) := by
  induction applied with
  | nil => rfl
  | cons k rest ih =>
    by_cases h : k ∈ uk <;> simp [removePhase, List.filter_cons, h, ih]

theorem removePhase_noop (env : GiftEnv) (tiers : List RewardTier)
    (uk : List (RewardType × Nat)) (applied : List (RewardType × Nat))
    (h : ∀ k ∈ applied, k ∈ uk) :
    removePhase env tiers uk applied = (applied, []) := by
  induction applied with
  | nil => rfl
  | cons k rest ih =>
    simp only [removePhase, if_pos (h k (List.mem_cons_self k rest))]
    rw [ih fun k2 hk => h k2 (List.mem_cons_of_mem k hk)]

theorem applyRewards_state_spec (env : GiftEnv) (tiers : List RewardTier)
    (cartTotal : Nat) (s : RewardsState) (hne : tiers ≠ []) :
    (applyRewards env tiers cartTotal s).1.appliedRewards =
      ((applyPhase env (unlockedTiersOf tiers cartTotal) s.appliedRewards).1.filter
        fun k => decide (k ∈ (unlockedTiersOf tiers cartTotal).map tierKey)) ∧
    (applyRewards env tiers cartTotal s).1.lastCount =
      (unlockedTiersOf tiers cartTotal).length ∧
    (applyRewards env tiers cartTotal s).1.lastHasShipping =
      hasShippingOf tiers cartTotal := by
  simp only [applyRewards, if_neg hne]
  by_cases hch : (unlockedTiersOf tiers cartTotal).length = s.lastCount ∧
      hasShippingOf tiers cartTotal = s.lastHasShipping
  · simp only [if_pos hch]
    exact ⟨removePhase_kept env _ _ _, hch.1.symm, hch.2.symm⟩
  · simp only [if_neg hch]
    exact ⟨removePhase_kept env _ _ _, trivial, trivial⟩

theorem applyRewards_applied_mem (env : GiftEnv) (tiers : List RewardTier)
    (cartTotal : Nat) (s : RewardsState) (hne : tiers ≠ []) (k : RewardType × Nat) :
    k ∈ (applyRewards env tiers cartTotal s).1.appliedRewards ↔
      k ∈ (unlockedTiersOf tiers cartTotal).map tierKey := by
  rw [(applyRewards_state_spec env tiers cartTotal s hne).1, List.mem_filter]
  constructor
  · intro h
    exact of_decide_eq_true h.2
  · intro h
    exact ⟨(applyPhase_mem env _ _ k).mpr (Or.inr h), decide_eq_true h⟩

/-- C6: evaluating the reward-tier pass a second time against the same
cart total and the state left by the first run issues no mutation at
all and leaves the state unchanged: after the first run every unlocked
key is applied, every applied key is unlocked, and the last observed
count and free-shipping flag already match, so the attribute recompute
does not fire. -/
theorem reward_pass_idempotent (env : GiftEnv) (tiers : List RewardTier)
    (cartTotal : Nat) (s : RewardsState) (k₁ k₂ : RewardType × Nat)
    (hne : tiers ≠ [])
    (hk1 : k₁ ∈ (unlockedTiersOf tiers cartTotal).map tierKey)
    (hk2 : k₂ ∈ (applyRewards env tiers cartTotal s).1.appliedRewards) :
    (applyRewards env tiers cartTotal (applyRewards env tiers cartTotal s).1).2 = [] ∧
    (applyRewards env tiers cartTotal (applyRewards env tiers cartTotal s).1).1 =
      (applyRewards env tiers cartTotal s).1 ∧
    k₁ ∈ (applyRewards env tiers cartTotal s).1.appliedRewards ∧
    k₂ ∈ (unlockedTiersOf tiers cartTotal).map tierKey ∧
    (applyRewards env tiers cartTotal s).1.lastCount =
      (unlockedTiersOf tiers cartTotal).length ∧
    (applyRewards env tiers cartTotal s).1.lastHasShipping =
      hasShippingOf tiers cartTotal := by
  obtain ⟨hs1, hs2, hs3⟩ := applyRewards_state_spec env tiers cartTotal s hne
  have hmem := applyRewards_applied_mem env tiers cartTotal s hne
  set S := (applyRewards env tiers cartTotal s).1 with hS
  have hsup : ∀ t ∈ unlockedTiersOf tiers cartTotal, tierKey t ∈ S.appliedRewards :=
    fun t htm => (hmem (tierKey t)).mpr (List.mem_map_of_mem tierKey htm)
  have hsub : ∀ k ∈ S.appliedRewards,
      k ∈ (unlockedTiersOf tiers cartTotal).map tierKey :=
    fun k hk => (hmem k).mp hk
  have hp1 := applyPhase_noop env (unlockedTiersOf tiers cartTotal) S.appliedRewards hsup
  have hp2 := removePhase_noop env (sortTiers tiers)
    ((unlockedTiersOf tiers cartTotal).map tierKey) S.appliedRewards hsub
  have hcond : (unlockedTiersOf tiers cartTotal).length = S.lastCount ∧
      hasShippingOf tiers cartTotal = S.lastHasShipping := ⟨hs2.symm, hs3.symm⟩
  refine ⟨?_, ?_, (hmem k₁).mpr hk1, (hmem k₂).mp hk2, hs2, hs3⟩
  · simp only [applyRewards, if_neg hne, hp1, hp2, if_pos hcond, List.nil_append]
  · simp only [applyRewards, if_neg hne, hp1, hp2, if_pos hcond]

/-- Witness for C6 at one free-shipping tier unlocked from the empty
state. -/
theorem reward_pass_idempotent_witness :
    (applyRewards wEnv6 wTiers6 1000 (applyRewards wEnv6 wTiers6 1000 wState6).1).2 = [] ∧
    (applyRewards wEnv6 wTiers6 1000 (applyRewards wEnv6 wTiers6 1000 wState6).1).1 =
      (applyRewards wEnv6 wTiers6 1000 wState6).1 ∧
    (RewardType.free_shipping, 1000) ∈
      (applyRewards wEnv6 wTiers6 1000 wState6).1.appliedRewards ∧
    (RewardType.free_shipping, 1000) ∈ (unlockedTiersOf wTiers6 1000).map tierKey ∧
    (applyRewards wEnv6 wTiers6 1000 wState6).1.lastCount =
      (unlockedTiersOf wTiers6 1000).length ∧
    (applyRewards wEnv6 wTiers6 1000 wState6).1.lastHasShipping =
      hasShippingOf wTiers6 1000 :=
  reward_pass_idempotent wEnv6 wTiers6 1000 wState6
    (RewardType.free_shipping, 1000) (RewardType.free_shipping, 1000)
    (by decide) (by decide) (by decide)

/-- Counterexample to C7 as stated: with the product lookup failing,
the only mutation of the pass is the attribute update, no free-gift add
is ever issued, and yet the free-gift key is in the applied set. -/
theorem reward_key_marked_despite_failure :
    (applyRewards wEnv7 [wTier7] 1000 wState7).1.appliedRewards =
      [(RewardType.free_gift, 1000)] ∧
    (applyRewards wEnv7 [wTier7] 1000 wState7).2 =
      [RewardMutation.updateAttrs ⟨1, false, none, none⟩] := by
  constructor <;> rfl

/-- C7 amended: the key of an unlocked free-gift tier is added to the
applied set right after the apply attempt returns, whatever the
environment outcomes (all errors inside addFreeGiftToCart are
swallowed), so a failed mutation still marks the key applied;
attribute-only types are likewise marked immediately. -/
theorem reward_key_marked_after_attempt (env : GiftEnv) (tiers : List RewardTier)
    (cartTotal : Nat) (s : RewardsState) (tier : RewardTier)
    (htier : tier ∈ unlockedTiersOf tiers cartTotal) :
    tierKey tier ∈ (applyRewards env tiers cartTotal s).1.appliedRewards := by
  have hne : tiers ≠ [] := by
    intro h
    rw [h] at htier
    simp [unlockedTiersOf, sortTiers] at htier
  exact (applyRewards_applied_mem env tiers cartTotal s hne (tierKey tier)).mpr
    (List.mem_map_of_mem tierKey htier)

/-- Witness for the amended C7: the key of a concrete unlocked
free-gift tier is applied even though its product lookup fails. -/
theorem reward_key_marked_after_attempt_witness :
    tierKey wTier7b ∈ (applyRewards wEnv7 [wTier7b] 500 wState7).1.appliedRewards :=
  reward_key_marked_after_attempt wEnv7 [wTier7b] 500 wState7 wTier7b (by decide)

end Popcart
